import Mathlib

/-!
Shallow embedding of `qml/utils/alchemy.py`: the element-similarity
("alchemical") matrix generator.  Python dictionaries are modelled as
association lists kept in source order (a duplicated key is kept, and
lookup takes the latest binding, as a Python dict literal does); numpy
float arrays are modelled as lists of lists over exact numbers (ℚ for
the computable parts, ℝ where the code applies `exp`); a Python
`assert`/`KeyError`/`exit(1)` failure is an `Except.error`.
-/

set_option maxHeartbeats 1600000

set_option maxRecDepth 40000

/-- Lookup in a Python dict built from an association-list literal:
later bindings overwrite earlier ones, so the last matching binding wins. -/
def dGet {α : Type} (t : List (Nat × α)) (k : Nat) : Option α :=
  t.foldl (fun acc p => if p.1 = k then some p.2 else acc) none

/-- The periodic-table position dict `PTP` of the source, entry for entry in
source order: atomic number to the pair (period row, group column).  The
source literal binds the key 101 twice (`101:[7,31]` then `101:[7,32]`). -/
def PTP : List (Nat × Int × Int) := [
  (1, 1, 1),
  (2, 1, 8),
  (3, 2, 1),
  (4, 2, 2),
  (5, 2, 3),
  (6, 2, 4),
  (7, 2, 5),
  (8, 2, 6),
  (9, 2, 7),
  (10, 2, 8),
  (11, 3, 1),
  (12, 3, 2),
  (13, 3, 3),
  (14, 3, 4),
  (15, 3, 5),
  (16, 3, 6),
  (17, 3, 7),
  (18, 3, 8),
  (19, 4, 1),
  (20, 4, 2),
  (31, 4, 3),
  (32, 4, 4),
  (33, 4, 5),
  (34, 4, 6),
  (35, 4, 7),
  (36, 4, 8),
  (21, 4, 9),
  (22, 4, 10),
  (23, 4, 11),
  (24, 4, 12),
  (25, 4, 13),
  (26, 4, 14),
  (27, 4, 15),
  (28, 4, 16),
  (29, 4, 17),
  (30, 4, 18),
  (37, 5, 1),
  (38, 5, 2),
  (49, 5, 3),
  (50, 5, 4),
  (51, 5, 5),
  (52, 5, 6),
  (53, 5, 7),
  (54, 5, 8),
  (39, 5, 9),
  (40, 5, 10),
  (41, 5, 11),
  (42, 5, 12),
  (43, 5, 13),
  (44, 5, 14),
  (45, 5, 15),
  (46, 5, 16),
  (47, 5, 17),
  (48, 5, 18),
  (55, 6, 1),
  (56, 6, 2),
  (81, 6, 3),
  (82, 6, 4),
  (83, 6, 5),
  (84, 6, 6),
  (85, 6, 7),
  (86, 6, 8),
  (72, 6, 10),
  (73, 6, 11),
  (74, 6, 12),
  (75, 6, 13),
  (76, 6, 14),
  (77, 6, 15),
  (78, 6, 16),
  (79, 6, 17),
  (80, 6, 18),
  (57, 6, 19),
  (58, 6, 20),
  (59, 6, 21),
  (60, 6, 22),
  (61, 6, 23),
  (62, 6, 24),
  (63, 6, 25),
  (64, 6, 26),
  (65, 6, 27),
  (66, 6, 28),
  (67, 6, 29),
  (68, 6, 30),
  (69, 6, 31),
  (70, 6, 32),
  (71, 6, 33),
  (87, 7, 1),
  (88, 7, 2),
  (113, 7, 3),
  (114, 7, 4),
  (115, 7, 5),
  (116, 7, 6),
  (117, 7, 7),
  (118, 7, 8),
  (104, 7, 10),
  (105, 7, 11),
  (106, 7, 12),
  (107, 7, 13),
  (108, 7, 14),
  (109, 7, 15),
  (110, 7, 16),
  (111, 7, 17),
  (112, 7, 18),
  (89, 7, 19),
  (90, 7, 20),
  (91, 7, 21),
  (92, 7, 22),
  (93, 7, 23),
  (94, 7, 24),
  (95, 7, 25),
  (96, 7, 26),
  (97, 7, 27),
  (98, 7, 28),
  (99, 7, 29),
  (100, 7, 30),
  (101, 7, 31),
  (101, 7, 32),
  (102, 7, 14),
  (103, 7, 33)]

/-- The quantum-number dict `QtNm` of the source, entry for entry in source
order: atomic number to the 4-tuple (principal n, signed sublevel offset m,
sublevel count l, spin-like tag ±1/2). -/
def QtNm : List (Nat × ℚ × ℚ × ℚ × ℚ) := [
  (1, 1, 0, 0, 1/2),
  (2, 1, 0, 0, -1/2),
  (3, 2, 0, 0, 1/2),
  (4, 2, 0, 0, -1/2),
  (5, 2, -1, 1, 1/2),
  (6, 2, 0, 1, 1/2),
  (7, 2, 1, 1, 1/2),
  (8, 2, -1, 1, -1/2),
  (9, 2, 0, 1, -1/2),
  (10, 2, 1, 1, -1/2),
  (11, 3, 0, 0, 1/2),
  (12, 3, 0, 0, -1/2),
  (13, 3, -1, 1, 1/2),
  (14, 3, 0, 1, 1/2),
  (15, 3, 1, 1, 1/2),
  (16, 3, -1, 1, -1/2),
  (17, 3, 0, 1, -1/2),
  (18, 3, 1, 1, -1/2),
  (19, 4, 0, 0, 1/2),
  (20, 4, 0, 0, -1/2),
  (31, 4, -1, 2, 1/2),
  (32, 4, 0, 1, 1/2),
  (33, 4, 1, 1, 1/2),
  (34, 4, -1, 1, -1/2),
  (35, 4, 0, 1, -1/2),
  (36, 4, 1, 1, -1/2),
  (21, 4, -2, 2, 1/2),
  (22, 4, -1, 2, 1/2),
  (23, 4, 0, 2, 1/2),
  (24, 4, 1, 2, 1/2),
  (25, 4, 2, 2, 1/2),
  (26, 4, -2, 2, -1/2),
  (27, 4, -1, 2, -1/2),
  (28, 4, 0, 2, -1/2),
  (29, 4, 1, 2, -1/2),
  (30, 4, 2, 2, -1/2),
  (37, 5, 0, 0, 1/2),
  (38, 5, 0, 0, -1/2),
  (49, 5, -1, 1, 1/2),
  (50, 5, 0, 1, 1/2),
  (51, 5, 1, 1, 1/2),
  (52, 5, -1, 1, -1/2),
  (53, 5, 0, 1, -1/2),
  (54, 5, 1, 1, -1/2),
  (39, 5, -2, 2, 1/2),
  (40, 5, -1, 2, 1/2),
  (41, 5, 0, 2, 1/2),
  (42, 5, 1, 2, 1/2),
  (43, 5, 2, 2, 1/2),
  (44, 5, -2, 2, -1/2),
  (45, 5, -1, 2, -1/2),
  (46, 5, 0, 2, -1/2),
  (47, 5, 1, 2, -1/2),
  (48, 5, 2, 2, -1/2),
  (55, 6, 0, 0, 1/2),
  (56, 6, 0, 0, -1/2),
  (81, 6, -1, 1, 1/2),
  (82, 6, 0, 1, 1/2),
  (83, 6, 1, 1, 1/2),
  (84, 6, -1, 1, -1/2),
  (85, 6, 0, 1, -1/2),
  (86, 6, 1, 1, -1/2),
  (71, 6, -2, 2, 1/2),
  (72, 6, -1, 2, 1/2),
  (73, 6, 0, 2, 1/2),
  (74, 6, 1, 2, 1/2),
  (75, 6, 2, 2, 1/2),
  (76, 6, -2, 2, -1/2),
  (77, 6, -1, 2, -1/2),
  (78, 6, 0, 2, -1/2),
  (79, 6, 1, 2, -1/2),
  (80, 6, 2, 2, -1/2),
  (57, 6, -3, 3, 1/2),
  (58, 6, -2, 3, 1/2),
  (59, 6, -1, 3, 1/2),
  (60, 6, 0, 3, 1/2),
  (61, 6, 1, 3, 1/2),
  (62, 6, 2, 3, 1/2),
  (63, 6, 3, 3, 1/2),
  (64, 6, -3, 3, -1/2),
  (65, 6, -2, 3, -1/2),
  (66, 6, -1, 3, -1/2),
  (67, 6, 0, 3, -1/2),
  (68, 6, 1, 3, -1/2),
  (69, 6, 2, 3, -1/2),
  (70, 6, 3, 3, -1/2),
  (87, 7, 0, 0, 1/2),
  (88, 7, 0, 0, -1/2),
  (113, 7, -1, 1, 1/2),
  (114, 7, 0, 1, 1/2),
  (115, 7, 1, 1, 1/2),
  (116, 7, -1, 1, -1/2),
  (117, 7, 0, 1, -1/2),
  (118, 7, 1, 1, -1/2),
  (103, 7, -2, 2, 1/2),
  (104, 7, -1, 2, 1/2),
  (105, 7, 0, 2, 1/2),
  (106, 7, 1, 2, 1/2),
  (107, 7, 2, 2, 1/2),
  (108, 7, -2, 2, -1/2),
  (109, 7, -1, 2, -1/2),
  (110, 7, 0, 2, -1/2),
  (111, 7, 1, 2, -1/2),
  (112, 7, 2, 2, -1/2),
  (89, 7, -3, 3, 1/2),
  (90, 7, -2, 3, 1/2),
  (91, 7, -1, 3, 1/2),
  (92, 7, 0, 3, 1/2),
  (93, 7, 1, 3, 1/2),
  (94, 7, 2, 3, 1/2),
  (95, 7, 3, 3, 1/2),
  (96, 7, -3, 3, -1/2),
  (97, 7, -2, 3, -1/2),
  (98, 7, -1, 3, -1/2),
  (99, 7, 0, 3, -1/2),
  (100, 7, 1, 3, -1/2),
  (101, 7, 2, 3, -1/2),
  (102, 7, 3, 3, -1/2)]

/-- A dense square matrix of size n by n filled row by row, as the source's
double loop over `range(emax)` fills `pd[i,j]`. -/
def mkMat {α : Type} (n : Nat) (f : Nat → Nat → α) : List (List α) :=
  (List.range n).map (fun i => (List.range n).map (fun j => f i j))

/-- Entry (i, j) of a list-of-lists matrix (0 outside the stored extent). -/
def entry {α : Type} [Zero α] (M : List (List α)) (i j : Nat) : α :=
  (M.getD i []).getD j 0

/-- The exponent of `periodic_distance`:
`-(ra - rb)**2/(4 * r_width**2) - (ca - cb)**2/(4 * c_width**2)`. -/
def periodic_exponent (pa pb : Int × Int) (r_width c_width : ℚ) : ℚ :=
  -(((pa.1 - pb.1 : Int) : ℚ)) ^ 2 / (4 * r_width ^ 2)
    - (((pa.2 - pb.2 : Int) : ℚ)) ^ 2 / (4 * c_width ^ 2)

/-- The source's `periodic_distance(a, b, r_width, c_width)`: looks the two
atomic numbers up in `PTP` (a missing key is a `KeyError`, modelled as
`none`) and applies the Gaussian of the row and column differences. -/
noncomputable def periodic_distance (a b : Nat) (r_width c_width : ℚ) : Option ℝ :=
  match dGet PTP a, dGet PTP b with
  | some pa, some pb => some (Real.exp ((periodic_exponent pa pb r_width c_width : ℚ) : ℝ))
  | _, _ => none

/-- The exponent of `QNum_distance`: minus the four squared quantum-number
differences, each over four times its squared width. -/
def qnum_exponent (qa qb : ℚ × ℚ × ℚ × ℚ) (n_width m_width l_width s_width : ℚ) : ℚ :=
  -(qa.1 - qb.1) ^ 2 / (4 * n_width ^ 2)
    - (qa.2.1 - qb.2.1) ^ 2 / (4 * m_width ^ 2)
    - (qa.2.2.1 - qb.2.2.1) ^ 2 / (4 * l_width ^ 2)
    - (qa.2.2.2 - qb.2.2.2) ^ 2 / (4 * s_width ^ 2)

/-- The source's `QNum_distance(a, b, n_width, m_width, l_width, s_width)`:
looks the two atomic numbers up in `QtNm` and applies the product of four
Gaussian decays, one per quantum number. -/
noncomputable def QNum_distance (a b : Nat) (n_width m_width l_width s_width : ℚ) : Option ℝ :=
  match dGet QtNm a, dGet QtNm b with
  | some qa, some qb =>
      some (Real.exp ((qnum_exponent qa qb n_width m_width l_width s_width : ℚ) : ℝ))
  | _, _ => none

/-- The source's `gen_pd(emax, r_width, c_width)`: fills an emax by emax
matrix with `periodic_distance(i+1, j+1, ...)`; a failing table lookup in the
loop is a `KeyError` aborting the whole call. -/
noncomputable def gen_pd (emax : Nat) (r_width c_width : ℚ) : Except String (List (List ℝ)) :=
  if _h : ∀ i < emax, ∀ j < emax, (periodic_distance (i + 1) (j + 1) r_width c_width).isSome
  then .ok (mkMat emax (fun i j => (periodic_distance (i + 1) (j + 1) r_width c_width).getD 0))
  else .error "KeyError"

/-- The source's `gen_QNum_distances(emax, n_width, m_width, l_width,
s_width)`: fills an emax by emax matrix with `QNum_distance(i+1, j+1, ...)`. -/
noncomputable def gen_QNum_distances (emax : Nat)
    (n_width m_width l_width s_width : ℚ) : Except String (List (List ℝ)) :=
  if _h : ∀ i < emax, ∀ j < emax,
      (QNum_distance (i + 1) (j + 1) n_width m_width l_width s_width).isSome
  then .ok (mkMat emax
    (fun i j => (QNum_distance (i + 1) (j + 1) n_width m_width l_width s_width).getD 0))
  else .error "KeyError"

/-- The source's inner `check_if_unique(iterator)`: `len(set(iterator)) == 1`. -/
def check_if_unique (iterator : List Nat) : Bool :=
  iterator.dedup.length == 1

/-- The row of `tmp` that `tmp[k,:] = v` writes: numpy wraps a negative
index k to `k + emax`. -/
def rowIndex (emax : Nat) (k : Int) : Int :=
  if k < 0 then k + emax else k

/-- Pointwise product sum of two equal-length rows: one entry of
`np.dot(tmp, tmp.T)`. -/
def listDot : List ℚ → List ℚ → ℚ
  | [], _ => 0
  | _ :: _, [] => 0
  | a :: u, b :: v => a * b + listDot u v

/-- The `tmp` array of `gen_custom` after the assignment loop: starts as
`np.zeros((emax, d))` and each binding `(k, v)` overwrites row
`rowIndex emax k` with v, in source order (later bindings win). -/
def buildTmp (emax d : Nat) (e_vec : List (Int × List ℚ)) : Nat → List ℚ :=
  e_vec.foldl (fun tmp p => fun i => if i = (rowIndex emax p.1).toNat then p.2 else tmp i)
    (fun _ => List.replicate d 0)

/-- The source's `gen_custom(e_vec, emax)`: asserts that all supplied vectors
have one common length (`check_if_unique` over the lengths, which also fails
on an empty mapping), then scatters the vectors into the rows of `tmp` (an
out-of-range key is a numpy `IndexError`) and returns `np.dot(tmp, tmp.T)`. -/
def gen_custom (e_vec : List (Int × List ℚ)) (emax : Nat) : Except String (List (List ℚ)) :=
  let num_dims := e_vec.map (fun p => p.2.length)
  if check_if_unique num_dims then
    if e_vec.all (fun p => decide (-(emax : Int) ≤ p.1) && decide (p.1 < (emax : Int))) then
      let tmp := buildTmp emax (num_dims.headD 0) e_vec
      .ok (mkMat emax (fun i j => listDot (tmp i) (tmp j)))
    else .error "IndexError"
  else .error "Error! Unequal number of dimensions"

/-- The numpy identity matrix `np.eye(n)`. -/
noncomputable def np_eye (n : Nat) : List (List ℝ) :=
  mkMat n (fun i j => if i = j then 1 else 0)

/-- A rational matrix viewed as a real matrix (the float array `gen_custom`
hands back to `get_alchemy`). -/
noncomputable def ratMat (M : List (List ℚ)) : List (List ℝ) :=
  M.map (List.map (fun (q : ℚ) => (q : ℝ)))

/-- The first argument of `get_alchemy`: either a raw numpy array or a mode
string (the source dispatches on `type(alchemy) == np.ndarray`). -/
inductive AlchemyArg where
  | ndarray : List (List ℝ) → AlchemyArg
  | str : String → AlchemyArg

/-- The source's `get_alchemy(alchemy, emax, r_width, c_width,
elemental_vectors, n_width, m_width, l_width, s_width)`: returns the
do-alchemy flag and the similarity matrix, or fails fatally (`exit(1)` on an
unknown mode, a propagated assertion or lookup error otherwise). -/
noncomputable def get_alchemy (alchemy : AlchemyArg) (emax : Nat)
    (r_width c_width : ℚ) (elemental_vectors : List (Int × List ℚ))
    (n_width m_width l_width s_width : ℚ) : Except String (Bool × List (List ℝ)) :=
  match alchemy with
  | .ndarray m => .ok (true, m)
  | .str s =>
    if s = "off" then
      .ok (false, np_eye emax)
    else if s = "periodic-table" then
      match gen_pd emax r_width c_width with
      | .ok pd => .ok (true, pd)
      | .error e => .error e
    else if s = "quantum-numbers" then
      match gen_QNum_distances emax n_width m_width l_width s_width with
      | .ok pd => .ok (true, pd)
      | .error e => .error e
    else if s = "custom" then
      match gen_custom elemental_vectors emax with
      | .ok pd => .ok (true, ratMat pd)
      | .error e => .error e
    else
      .error ("QML ERROR: Unknown alchemical method specified: " ++ s)

/-- The vector the caller supplied for element id i, or the all-zero vector
of the common length d when element i has no binding. -/
def rowVec (e_vec : List (Int × List ℚ)) (d : Nat) (i : Nat) : List ℚ :=
  ((e_vec.find? (fun p => p.1 = (i : Int))).map Prod.snd).getD (List.replicate d 0)

/-! Helper lemmas about the embedding. -/

theorem entry_mkMat {α : Type} [Zero α] (n : Nat) (f : Nat → Nat → α) (i j : Nat)
    (hi : i < n) (hj : j < n) : entry (mkMat n f) i j = f i j := by
  simp [entry, mkMat, List.getD_eq_getElem?_getD, List.getElem?_map, List.getElem?_range, hi, hj]

theorem gen_pd_ok {emax : Nat} {r_width c_width : ℚ} {M : List (List ℝ)}
    (h : gen_pd emax r_width c_width = .ok M) :
    M = mkMat emax (fun i j => (periodic_distance (i + 1) (j + 1) r_width c_width).getD 0) := by
  unfold gen_pd at h
  by_cases hg : ∀ i < emax, ∀ j < emax,
      (periodic_distance (i + 1) (j + 1) r_width c_width).isSome
  · rw [dif_pos hg] at h
    injection h with h2
    exact h2.symm
  · rw [dif_neg hg] at h
    exact Except.noConfusion h

theorem gen_pd_guard {emax : Nat} {r_width c_width : ℚ} {M : List (List ℝ)}
    (h : gen_pd emax r_width c_width = .ok M) :
    ∀ i < emax, ∀ j < emax, (periodic_distance (i + 1) (j + 1) r_width c_width).isSome := by
  unfold gen_pd at h
  by_cases hg : ∀ i < emax, ∀ j < emax,
      (periodic_distance (i + 1) (j + 1) r_width c_width).isSome
  · exact hg
  · rw [dif_neg hg] at h
    exact Except.noConfusion h

theorem gen_QNum_ok {emax : Nat} {n_width m_width l_width s_width : ℚ} {M : List (List ℝ)}
    (h : gen_QNum_distances emax n_width m_width l_width s_width = .ok M) :
    M = mkMat emax
      (fun i j => (QNum_distance (i + 1) (j + 1) n_width m_width l_width s_width).getD 0) := by
  unfold gen_QNum_distances at h
  by_cases hg : ∀ i < emax, ∀ j < emax,
      (QNum_distance (i + 1) (j + 1) n_width m_width l_width s_width).isSome
  · rw [dif_pos hg] at h
    injection h with h2
    exact h2.symm
  · rw [dif_neg hg] at h
    exact Except.noConfusion h

theorem gen_QNum_guard {emax : Nat} {n_width m_width l_width s_width : ℚ} {M : List (List ℝ)}
    (h : gen_QNum_distances emax n_width m_width l_width s_width = .ok M) :
    ∀ i < emax, ∀ j < emax,
      (QNum_distance (i + 1) (j + 1) n_width m_width l_width s_width).isSome := by
  unfold gen_QNum_distances at h
  by_cases hg : ∀ i < emax, ∀ j < emax,
      (QNum_distance (i + 1) (j + 1) n_width m_width l_width s_width).isSome
  · exact hg
  · rw [dif_neg hg] at h
    exact Except.noConfusion h

theorem periodic_distance_eq {a b : Nat} {r_width c_width : ℚ} {pa pb : Int × Int}
    (ha : dGet PTP a = some pa) (hb : dGet PTP b = some pb) :
    periodic_distance a b r_width c_width
      = some (Real.exp ((periodic_exponent pa pb r_width c_width : ℚ) : ℝ)) := by
  unfold periodic_distance
  rw [ha, hb]

theorem QNum_distance_eq {a b : Nat} {n_width m_width l_width s_width : ℚ}
    {qa qb : ℚ × ℚ × ℚ × ℚ}
    (ha : dGet QtNm a = some qa) (hb : dGet QtNm b = some qb) :
    QNum_distance a b n_width m_width l_width s_width
      = some (Real.exp ((qnum_exponent qa qb n_width m_width l_width s_width : ℚ) : ℝ)) := by
  unfold QNum_distance
  rw [ha, hb]

theorem periodic_distance_isSome {a b : Nat} {r_width c_width : ℚ}
    (ha : (dGet PTP a).isSome) (hb : (dGet PTP b).isSome) :
    (periodic_distance a b r_width c_width).isSome := by
  unfold periodic_distance
  cases hA : dGet PTP a with
  | none => rw [hA] at ha; exact Bool.noConfusion ha
  | some pa =>
    cases hB : dGet PTP b with
    | none => rw [hB] at hb; exact Bool.noConfusion hb
    | some pb => rfl

theorem QNum_distance_isSome {a b : Nat} {n_width m_width l_width s_width : ℚ}
    (ha : (dGet QtNm a).isSome) (hb : (dGet QtNm b).isSome) :
    (QNum_distance a b n_width m_width l_width s_width).isSome := by
  unfold QNum_distance
  cases hA : dGet QtNm a with
  | none => rw [hA] at ha; exact Bool.noConfusion ha
  | some qa =>
    cases hB : dGet QtNm b with
    | none => rw [hB] at hb; exact Bool.noConfusion hb
    | some qb => rfl

theorem periodic_exponent_symm (pa pb : Int × Int) (r_width c_width : ℚ) :
    periodic_exponent pa pb r_width c_width = periodic_exponent pb pa r_width c_width := by
  unfold periodic_exponent
  push_cast
  ring

theorem qnum_exponent_symm (qa qb : ℚ × ℚ × ℚ × ℚ) (n_width m_width l_width s_width : ℚ) :
    qnum_exponent qa qb n_width m_width l_width s_width
      = qnum_exponent qb qa n_width m_width l_width s_width := by
  unfold qnum_exponent
  ring

theorem periodic_distance_symm (a b : Nat) (r_width c_width : ℚ) :
    periodic_distance a b r_width c_width = periodic_distance b a r_width c_width := by
  unfold periodic_distance
  cases dGet PTP a with
  | none => cases dGet PTP b <;> rfl
  | some pa =>
    cases dGet PTP b with
    | none => rfl
    | some pb =>
      show some (Real.exp ((periodic_exponent pa pb r_width c_width : ℚ) : ℝ))
        = some (Real.exp ((periodic_exponent pb pa r_width c_width : ℚ) : ℝ))
      rw [periodic_exponent_symm]

theorem QNum_distance_symm (a b : Nat) (n_width m_width l_width s_width : ℚ) :
    QNum_distance a b n_width m_width l_width s_width
      = QNum_distance b a n_width m_width l_width s_width := by
  unfold QNum_distance
  cases dGet QtNm a with
  | none => cases dGet QtNm b <;> rfl
  | some qa =>
    cases dGet QtNm b with
    | none => rfl
    | some qb =>
      show some (Real.exp ((qnum_exponent qa qb n_width m_width l_width s_width : ℚ) : ℝ))
        = some (Real.exp ((qnum_exponent qb qa n_width m_width l_width s_width : ℚ) : ℝ))
      rw [qnum_exponent_symm]

theorem periodic_exponent_nonpos (pa pb : Int × Int) (r_width c_width : ℚ) :
    periodic_exponent pa pb r_width c_width ≤ 0 := by
  unfold periodic_exponent
  rw [neg_div]
  have h1 : 0 ≤ (((pa.1 - pb.1 : Int) : ℚ)) ^ 2 / (4 * r_width ^ 2) := by positivity
  have h2 : 0 ≤ (((pa.2 - pb.2 : Int) : ℚ)) ^ 2 / (4 * c_width ^ 2) := by positivity
  linarith

theorem qnum_exponent_nonpos (qa qb : ℚ × ℚ × ℚ × ℚ) (n_width m_width l_width s_width : ℚ) :
    qnum_exponent qa qb n_width m_width l_width s_width ≤ 0 := by
  unfold qnum_exponent
  rw [neg_div]
  have h1 : 0 ≤ (qa.1 - qb.1) ^ 2 / (4 * n_width ^ 2) := by positivity
  have h2 : 0 ≤ (qa.2.1 - qb.2.1) ^ 2 / (4 * m_width ^ 2) := by positivity
  have h3 : 0 ≤ (qa.2.2.1 - qb.2.2.1) ^ 2 / (4 * l_width ^ 2) := by positivity
  have h4 : 0 ≤ (qa.2.2.2 - qb.2.2.2) ^ 2 / (4 * s_width ^ 2) := by positivity
  linarith

theorem periodic_exponent_self (pa : Int × Int) (r_width c_width : ℚ) :
    periodic_exponent pa pa r_width c_width = 0 := by
  unfold periodic_exponent
  simp

theorem qnum_exponent_self (qa : ℚ × ℚ × ℚ × ℚ) (n_width m_width l_width s_width : ℚ) :
    qnum_exponent qa qa n_width m_width l_width s_width = 0 := by
  unfold qnum_exponent
  simp

theorem listDot_comm : ∀ u v : List ℚ, listDot u v = listDot v u
  | [], [] => rfl
  | [], _ :: _ => rfl
  | _ :: _, [] => rfl
  | a :: u, b :: v => by
    show a * b + listDot u v = b * a + listDot v u
    rw [listDot_comm u v, mul_comm]

theorem entry_ratMat (M : List (List ℚ)) (i j : Nat) :
    entry (ratMat M) i j = ((entry M i j : ℚ) : ℝ) := by
  unfold entry ratMat
  rw [List.getD_eq_getElem?_getD (List.map (List.map (fun (q : ℚ) => (q : ℝ))) M) i [],
    List.getD_eq_getElem?_getD M i [], List.getElem?_map]
  cases hMi : M[i]? with
  | none => simp
  | some r =>
    simp only [Option.map_some', Option.getD_some]
    rw [List.getD_eq_getElem?_getD (List.map (fun (q : ℚ) => (q : ℝ)) r) j 0,
      List.getD_eq_getElem?_getD r j 0, List.getElem?_map]
    cases hrj : r[j]? with
    | none => simp
    | some x => simp

theorem all_eq_of_check (l : List Nat) (h : check_if_unique l = true) :
    ∀ a ∈ l, ∀ b ∈ l, a = b := by
  intro a ha b hb
  unfold check_if_unique at h
  have hl : l.dedup.length = 1 := by simpa using h
  obtain ⟨c, hc⟩ := List.length_eq_one.mp hl
  have h1 : a ∈ l.dedup := List.mem_dedup.mpr ha
  have h2 : b ∈ l.dedup := List.mem_dedup.mpr hb
  rw [hc, List.mem_singleton] at h1 h2
  rw [h1, h2]

theorem dedup_of_all_eq {α : Type} [DecidableEq α] :
    ∀ (l : List α) (c : α), l ≠ [] → (∀ a ∈ l, a = c) → l.dedup = [c]
  | [], _, h, _ => absurd rfl h
  | a :: t, c, _, hall => by
    rcases eq_or_ne t [] with rfl | ht
    · rw [hall a (List.mem_cons_self a [])]
      rfl
    · have hdt : t.dedup = [c] :=
        dedup_of_all_eq t c ht (fun x hx => hall x (List.mem_cons_of_mem _ hx))
      have hac : a = c := hall a (List.mem_cons_self a t)
      have hat : a ∈ t := by
        have hc : c ∈ t.dedup := by
          rw [hdt]
          exact List.mem_singleton.mpr rfl
        rw [hac]
        exact List.mem_dedup.mp hc
      rw [List.dedup_cons_of_mem hat, hdt]

theorem check_of_all_eq (l : List Nat) (c : Nat) (hne : l ≠ []) (hall : ∀ a ∈ l, a = c) :
    check_if_unique l = true := by
  unfold check_if_unique
  rw [dedup_of_all_eq l c hne hall]
  rfl

theorem buildTmp_apply (emax : Nat) (i : Nat) :
    ∀ (l : List (Int × List ℚ)) (t0 : Nat → List ℚ),
      (l.foldl (fun tmp p => fun r => if r = (rowIndex emax p.1).toNat then p.2 else tmp r) t0) i
        = l.foldl (fun x p => if i = (rowIndex emax p.1).toNat then p.2 else x) (t0 i)
  | [], _ => rfl
  | p :: t, t0 => by
    rw [List.foldl_cons, List.foldl_cons]
    rw [buildTmp_apply emax i t
      (fun r => if r = (rowIndex emax p.1).toNat then p.2 else t0 r)]

theorem foldl_row_no_match (emax : Nat) (i : Nat) :
    ∀ (l : List (Int × List ℚ)) (x : List ℚ),
      (∀ p ∈ l, (rowIndex emax p.1).toNat ≠ i) →
      l.foldl (fun x p => if i = (rowIndex emax p.1).toNat then p.2 else x) x = x
  | [], _, _ => rfl
  | p :: t, x, h => by
    rw [List.foldl_cons]
    have hp : (rowIndex emax p.1).toNat ≠ i := h p (List.mem_cons_self p t)
    rw [if_neg (fun he => hp he.symm)]
    exact foldl_row_no_match emax i t x (fun q hq => h q (List.mem_cons_of_mem p hq))

theorem foldl_row_nodup (emax : Nat) (i : Nat) :
    ∀ (l : List (Int × List ℚ)) (x : List ℚ),
      (∀ p ∈ l, 0 ≤ p.1) → (l.map Prod.fst).Nodup →
      l.foldl (fun x p => if i = (rowIndex emax p.1).toNat then p.2 else x) x
        = ((l.find? (fun p => p.1 = (i : Int))).map Prod.snd).getD x
  | [], _, _, _ => rfl
  | p :: t, x, h0, hnd => by
    have hp0 : 0 ≤ p.1 := h0 p (List.mem_cons_self p t)
    have hidx : rowIndex emax p.1 = p.1 := by
      unfold rowIndex
      rw [if_neg (by omega)]
    by_cases hpi : p.1 = (i : Int)
    · have hIt : i = (rowIndex emax p.1).toNat := by
        rw [hidx, hpi]
        exact (Int.toNat_ofNat i).symm
      rw [List.foldl_cons, if_pos hIt]
      have hnone : ∀ q ∈ t, (rowIndex emax q.1).toNat ≠ i := by
        intro q hq
        have hq0 : 0 ≤ q.1 := h0 q (List.mem_cons_of_mem p hq)
        have hqidx : rowIndex emax q.1 = q.1 := by
          unfold rowIndex
          rw [if_neg (by omega)]
        rw [hqidx]
        intro hqe
        have hq1 : q.1 = (i : Int) := by omega
        have hmem : q.1 ∈ t.map Prod.fst := List.mem_map_of_mem Prod.fst hq
        have hnotin : p.1 ∉ t.map Prod.fst := (List.nodup_cons.mp (by simpa using hnd)).1
        rw [hpi, ← hq1] at hnotin
        exact hnotin hmem
      rw [foldl_row_no_match emax i t p.2 hnone]
      rw [List.find?_cons_of_pos t (decide_eq_true hpi)]
      rfl
    · have hIt : i ≠ (rowIndex emax p.1).toNat := by
        rw [hidx]
        omega
      rw [List.foldl_cons, if_neg hIt]
      rw [List.find?_cons_of_neg t (by simpa using hpi)]
      exact foldl_row_nodup emax i t x (fun q hq => h0 q (List.mem_cons_of_mem p hq))
        ((List.nodup_cons.mp (by simpa using hnd)).2)

theorem buildTmp_eq_rowVec (emax d : Nat) (e_vec : List (Int × List ℚ)) (i : Nat)
    (h0 : ∀ p ∈ e_vec, 0 ≤ p.1) (hnd : (e_vec.map Prod.fst).Nodup) :
    buildTmp emax d e_vec i = rowVec e_vec d i := by
  unfold buildTmp rowVec
  rw [buildTmp_apply emax i e_vec (fun _ => List.replicate d 0)]
  exact foldl_row_nodup emax i e_vec (List.replicate d 0) h0 hnd

theorem gen_custom_ok {e_vec : List (Int × List ℚ)} {emax : Nat} {M : List (List ℚ)}
    (h : gen_custom e_vec emax = .ok M) :
    M = mkMat emax (fun i j =>
      listDot (buildTmp emax ((e_vec.map (fun p => p.2.length)).headD 0) e_vec i)
        (buildTmp emax ((e_vec.map (fun p => p.2.length)).headD 0) e_vec j)) := by
  simp only [gen_custom] at h
  split_ifs at h
  injection h with h2
  exact h2.symm

theorem gen_custom_entry_symm {e_vec : List (Int × List ℚ)} {emax : Nat} {M : List (List ℚ)}
    (h : gen_custom e_vec emax = .ok M) (i j : Nat) (hi : i < emax) (hj : j < emax) :
    entry M i j = entry M j i := by
  rw [gen_custom_ok h, entry_mkMat emax _ i j hi hj, entry_mkMat emax _ j i hj hi,
    listDot_comm]

/-! The claims. -/

/-- C3: for every positive emax, `get_alchemy("off", emax)` returns (with the
do-alchemy flag off) the emax-by-emax identity matrix `np.eye(emax)`, whose
in-range entries are 1 on the diagonal and 0 elsewhere; and this matrix equals
the matrix component returned when the identity is supplied directly as a raw
precomputed array, raw arrays being returned verbatim with the flag on. -/
theorem off_eq_identity_raw (emax : Nat) (hemax : 0 < emax)
    (r_width c_width n_width m_width l_width s_width : ℚ)
    (e_vec : List (Int × List ℚ)) :
    get_alchemy (.str "off") emax r_width c_width e_vec n_width m_width l_width s_width
      = .ok (false, np_eye emax)
    ∧ get_alchemy (.ndarray (np_eye emax)) emax r_width c_width e_vec n_width m_width
        l_width s_width = .ok (true, np_eye emax)
    ∧ (∀ A : List (List ℝ), get_alchemy (.ndarray A) emax r_width c_width e_vec n_width
        m_width l_width s_width = .ok (true, A))
    ∧ (∀ i j : Nat, i < emax → j < emax →
        entry (np_eye emax) i j = if i = j then (1 : ℝ) else 0) := by
  refine ⟨?_, rfl, fun A => rfl, fun i j hi hj => ?_⟩
  · simp only [get_alchemy]
    rw [if_pos trivial]
  · unfold np_eye
    exact entry_mkMat emax _ i j hi hj

/-- Witness for C3 at emax = 2. -/
theorem off_eq_identity_raw_wit :
    0 < 2
    ∧ (get_alchemy (.str "off") 2 1 1 [] 1 1 1 1 = .ok (false, np_eye 2)
      ∧ get_alchemy (.ndarray (np_eye 2)) 2 1 1 [] 1 1 1 1 = .ok (true, np_eye 2)
      ∧ (∀ A : List (List ℝ), get_alchemy (.ndarray A) 2 1 1 [] 1 1 1 1 = .ok (true, A))
      ∧ (∀ i j : Nat, i < 2 → j < 2 →
          entry (np_eye 2) i j = if i = j then (1 : ℝ) else 0)) :=
  ⟨by decide, off_eq_identity_raw 2 (by decide) 1 1 1 1 1 1 []⟩

/-- C7: every unrecognized mode string makes `get_alchemy` fail fatally with a
message naming the offending mode, returning no matrix and falling back to no
default mode. -/
theorem unknown_mode_fatal (s : String) (h1 : s ≠ "off") (h2 : s ≠ "periodic-table")
    (h3 : s ≠ "quantum-numbers") (h4 : s ≠ "custom") (emax : Nat)
    (r_width c_width : ℚ) (e_vec : List (Int × List ℚ))
    (n_width m_width l_width s_width : ℚ) :
    get_alchemy (.str s) emax r_width c_width e_vec n_width m_width l_width s_width
      = .error ("QML ERROR: Unknown alchemical method specified: " ++ s) := by
  simp only [get_alchemy]
  rw [if_neg h1, if_neg h2, if_neg h3, if_neg h4]

/-- Witness for C7 at the unknown mode string "gaussian". -/
theorem unknown_mode_fatal_wit :
    ("gaussian" : String) ≠ "off"
    ∧ get_alchemy (.str "gaussian") 5 1 1 [] 1 1 1 1
        = .error ("QML ERROR: Unknown alchemical method specified: " ++ "gaussian") :=
  ⟨by decide, unknown_mode_fatal "gaussian" (by decide) (by decide) (by decide) (by decide)
    5 1 1 [] 1 1 1 1⟩

/-- C10: whenever `get_alchemy` returns a flag and a matrix, the flag is false
exactly when the argument was the mode string "off"; every other accepted
argument, a raw array included, gets the flag true. -/
theorem doalchemy_false_iff_off (a : AlchemyArg) (emax : Nat) (r_width c_width : ℚ)
    (e_vec : List (Int × List ℚ)) (n_width m_width l_width s_width : ℚ)
    (b : Bool) (M : List (List ℝ))
    (h : get_alchemy a emax r_width c_width e_vec n_width m_width l_width s_width
      = .ok (b, M)) :
    b = false ↔ a = .str "off" := by
  cases a with
  | ndarray m =>
    simp only [get_alchemy] at h
    injection h with h2
    injection h2 with hb hM
    rw [← hb]
    constructor
    · intro hfalse
      exact Bool.noConfusion hfalse
    · intro hctor
      exact AlchemyArg.noConfusion hctor
  | str s =>
    by_cases hoff : s = "off"
    · subst hoff
      simp only [get_alchemy] at h
      rw [if_pos trivial] at h
      injection h with h2
      injection h2 with hb hM
      rw [← hb]
      exact iff_of_true rfl rfl
    · have hne : b = true → (b = false ↔ AlchemyArg.str s = AlchemyArg.str "off") := by
        intro hbt
        subst hbt
        constructor
        · intro hfb
          exact Bool.noConfusion hfb
        · intro hctor
          injection hctor with hss
          exact absurd hss hoff
      simp only [get_alchemy] at h
      rw [if_neg hoff] at h
      by_cases hpt : s = "periodic-table"
      · rw [if_pos hpt] at h
        cases hpd : gen_pd emax r_width c_width with
        | ok pd =>
          rw [hpd] at h
          injection h with h2
          injection h2 with hb hM
          exact hne hb.symm
        | error e =>
          rw [hpd] at h
          exact Except.noConfusion h
      · rw [if_neg hpt] at h
        by_cases hqn : s = "quantum-numbers"
        · rw [if_pos hqn] at h
          cases hq : gen_QNum_distances emax n_width m_width l_width s_width with
          | ok pd =>
            rw [hq] at h
            injection h with h2
            injection h2 with hb hM
            exact hne hb.symm
          | error e =>
            rw [hq] at h
            exact Except.noConfusion h
        · rw [if_neg hqn] at h
          by_cases hcu : s = "custom"
          · rw [if_pos hcu] at h
            cases hg : gen_custom e_vec emax with
            | ok pd =>
              rw [hg] at h
              injection h with h2
              injection h2 with hb hM
              exact hne hb.symm
            | error e =>
              rw [hg] at h
              exact Except.noConfusion h
          · rw [if_neg hcu] at h
            exact Except.noConfusion h

/-- Witness for C10 at the "off" mode. -/
theorem doalchemy_false_iff_off_wit :
    get_alchemy (.str "off") 1 1 1 [] 1 1 1 1 = .ok (false, np_eye 1)
    ∧ (false = false ↔ AlchemyArg.str "off" = AlchemyArg.str "off") :=
  ⟨rfl, doalchemy_false_iff_off (.str "off") 1 1 1 [] 1 1 1 1 false (np_eye 1) rfl⟩

/-- C8 counterexample: in the quantum-number table `QtNm` the keys 101 and 102
are each bound exactly once and their effective entries are two distinct
quantum-number tuples, so the claimed 101/102 collision is not in `QtNm`. -/
theorem qtnm_101_102_distinct_cex :
    (QtNm.map Prod.fst).count 101 = 1 ∧ (QtNm.map Prod.fst).count 102 = 1
    ∧ dGet QtNm 101 = some (7, 2, 3, -1/2) ∧ dGet QtNm 102 = some (7, 3, 3, -1/2)
    ∧ dGet QtNm 101 ≠ dGet QtNm 102 := by
  exact ⟨by decide, by decide, by rfl, by rfl, by decide⟩

/-- C8 (amended): the duplicate key assignment around atomic numbers 101/102
is in the periodic-table position dict `PTP`, not in the quantum-number dict:
`PTP` binds the key 101 twice ([7,31] and then [7,32], the latter winning in
the effective table), and the effective entry of element 102, [7,14], collides
with the entry of element 108; `QtNm` keeps 101 and 102 distinct. -/
theorem ptp_duplicate_101 :
    (PTP.map Prod.fst).count 101 = 2
    ∧ ((101, ((7 : Int), (31 : Int))) ∈ PTP) ∧ ((101, ((7 : Int), (32 : Int))) ∈ PTP)
    ∧ dGet PTP 101 = some (7, 32)
    ∧ dGet PTP 102 = some (7, 14) ∧ dGet PTP 108 = some (7, 14)
    ∧ (QtNm.map Prod.fst).count 101 = 1 ∧ (QtNm.map Prod.fst).count 102 = 1
    ∧ dGet QtNm 101 ≠ dGet QtNm 102 := by
  exact ⟨by decide, by decide, by decide, by decide, by decide, by decide, by decide,
    by decide, by decide⟩

/-- C2: for every mode among off, periodic-table, quantum-numbers and custom,
every positive emax (at most 118 for the two table-based modes), all positive
bandwidth parameters and every custom vector mapping, any matrix that
`get_alchemy` returns is symmetric on its emax-by-emax extent. -/
theorem alchemy_matrix_symm (s : String)
    (hs : s = "off" ∨ s = "periodic-table" ∨ s = "quantum-numbers" ∨ s = "custom")
    (emax : Nat) (hemax : 0 < emax)
    (h118 : (s = "periodic-table" ∨ s = "quantum-numbers") → emax ≤ 118)
    (r_width c_width n_width m_width l_width s_width : ℚ)
    (hr : 0 < r_width) (hc : 0 < c_width) (hn : 0 < n_width) (hm : 0 < m_width)
    (hl : 0 < l_width) (hsw : 0 < s_width)
    (e_vec : List (Int × List ℚ)) (b : Bool) (M : List (List ℝ))
    (h : get_alchemy (.str s) emax r_width c_width e_vec n_width m_width l_width s_width
      = .ok (b, M))
    (i j : Nat) (hi : i < emax) (hj : j < emax) :
    entry M i j = entry M j i := by
  rcases hs with rfl | rfl | rfl | rfl
  · simp only [get_alchemy] at h
    rw [if_pos trivial] at h
    injection h with h2
    injection h2 with hb hM
    rw [← hM]
    unfold np_eye
    rw [entry_mkMat emax _ i j hi hj, entry_mkMat emax _ j i hj hi]
    by_cases hij : i = j
    · subst hij
      rfl
    · rw [if_neg hij, if_neg (fun hji => hij hji.symm)]
  · simp only [get_alchemy] at h
    rw [if_neg (by decide), if_pos trivial] at h
    cases hpd : gen_pd emax r_width c_width with
    | ok pd =>
      rw [hpd] at h
      injection h with h2
      injection h2 with hb hM
      rw [← hM, gen_pd_ok hpd]
      rw [entry_mkMat emax _ i j hi hj, entry_mkMat emax _ j i hj hi]
      rw [periodic_distance_symm]
    | error e =>
      rw [hpd] at h
      exact Except.noConfusion h
  · simp only [get_alchemy] at h
    rw [if_neg (by decide), if_neg (by decide), if_pos trivial] at h
    cases hq : gen_QNum_distances emax n_width m_width l_width s_width with
    | ok pd =>
      rw [hq] at h
      injection h with h2
      injection h2 with hb hM
      rw [← hM, gen_QNum_ok hq]
      rw [entry_mkMat emax _ i j hi hj, entry_mkMat emax _ j i hj hi]
      rw [QNum_distance_symm]
    | error e =>
      rw [hq] at h
      exact Except.noConfusion h
  · simp only [get_alchemy] at h
    rw [if_neg (by decide), if_neg (by decide), if_neg (by decide), if_pos trivial] at h
    cases hg : gen_custom e_vec emax with
    | ok pd =>
      rw [hg] at h
      injection h with h2
      injection h2 with hb hM
      rw [← hM, entry_ratMat, entry_ratMat, gen_custom_entry_symm hg i j hi hj]
    | error e =>
      rw [hg] at h
      exact Except.noConfusion h

/-- Witness for C2 at the periodic-table mode with emax = 2 and unit widths. -/
theorem alchemy_matrix_symm_wit :
    get_alchemy (.str "periodic-table") 2 1 1 [] 1 1 1 1
      = .ok (true, mkMat 2 (fun i j => (periodic_distance (i + 1) (j + 1) 1 1).getD 0))
    ∧ entry (mkMat 2 (fun i j => (periodic_distance (i + 1) (j + 1) 1 1).getD 0)) 0 1
      = entry (mkMat 2 (fun i j => (periodic_distance (i + 1) (j + 1) 1 1).getD 0)) 1 0 :=
  ⟨by rfl,
    alchemy_matrix_symm "periodic-table" (Or.inr (Or.inl rfl)) 2 (by decide)
      (fun _ => by decide) 1 1 1 1 1 1 (by decide) (by decide) (by decide) (by decide)
      (by decide) (by decide) [] true
      (mkMat 2 (fun i j => (periodic_distance (i + 1) (j + 1) 1 1).getD 0)) (by rfl)
      0 1 (by decide) (by decide)⟩

theorem periodic_lookup_of_isSome {a b : Nat} {r_width c_width : ℚ}
    (h : (periodic_distance a b r_width c_width).isSome) :
    ∃ pa pb, dGet PTP a = some pa ∧ dGet PTP b = some pb := by
  unfold periodic_distance at h
  cases hA : dGet PTP a with
  | none =>
    rw [hA] at h
    exact Bool.noConfusion h
  | some pa =>
    cases hB : dGet PTP b with
    | none =>
      rw [hA, hB] at h
      exact Bool.noConfusion h
    | some pb => exact ⟨pa, pb, rfl, rfl⟩

theorem qnum_lookup_of_isSome {a b : Nat} {n_width m_width l_width s_width : ℚ}
    (h : (QNum_distance a b n_width m_width l_width s_width).isSome) :
    ∃ qa qb, dGet QtNm a = some qa ∧ dGet QtNm b = some qb := by
  unfold QNum_distance at h
  cases hA : dGet QtNm a with
  | none =>
    rw [hA] at h
    exact Bool.noConfusion h
  | some qa =>
    cases hB : dGet QtNm b with
    | none =>
      rw [hA, hB] at h
      exact Bool.noConfusion h
    | some qb => exact ⟨qa, qb, rfl, rfl⟩

/-- C4: in the periodic-table mode, for every emax in [1, 118] and positive
widths, entry (i, j) of the returned matrix is the Gaussian
exp(-(Δperiod)² / (4·r_width²) - (Δgroup)² / (4·c_width²)) of the positions
of the 1-indexed elements i+1 and j+1 in the fixed table `PTP`. -/
theorem periodic_table_entry_formula (emax : Nat) (h1 : 1 ≤ emax) (h118 : emax ≤ 118)
    (r_width c_width : ℚ) (hr : 0 < r_width) (hc : 0 < c_width)
    (M : List (List ℝ)) (hM : gen_pd emax r_width c_width = .ok M)
    (i j : Nat) (hi : i < emax) (hj : j < emax)
    (pa pb : Int × Int) (hpa : dGet PTP (i + 1) = some pa)
    (hpb : dGet PTP (j + 1) = some pb) :
    entry M i j = Real.exp (-((pa.1 : ℝ) - (pb.1 : ℝ)) ^ 2 / (4 * (r_width : ℝ) ^ 2)
      - ((pa.2 : ℝ) - (pb.2 : ℝ)) ^ 2 / (4 * (c_width : ℝ) ^ 2)) := by
  rw [gen_pd_ok hM, entry_mkMat emax _ i j hi hj, periodic_distance_eq hpa hpb,
    Option.getD_some]
  congr 1
  unfold periodic_exponent
  push_cast
  ring

/-- Witness for C4 at emax = 2, unit widths, i = j = 0 (element 1 at [1,1]). -/
theorem periodic_table_entry_formula_wit :
    gen_pd 2 1 1 = .ok (mkMat 2 (fun i j => (periodic_distance (i + 1) (j + 1) 1 1).getD 0))
    ∧ dGet PTP 1 = some (1, 1)
    ∧ entry (mkMat 2 (fun i j => (periodic_distance (i + 1) (j + 1) 1 1).getD 0)) 0 0
      = Real.exp (-((((1, 1) : Int × Int).1 : ℝ) - (((1, 1) : Int × Int).1 : ℝ)) ^ 2
          / (4 * ((1 : ℚ) : ℝ) ^ 2)
        - ((((1, 1) : Int × Int).2 : ℝ) - (((1, 1) : Int × Int).2 : ℝ)) ^ 2
          / (4 * ((1 : ℚ) : ℝ) ^ 2)) :=
  ⟨by rfl, by decide,
    periodic_table_entry_formula 2 (by decide) (by decide) 1 1 (by decide) (by decide)
      (mkMat 2 (fun i j => (periodic_distance (i + 1) (j + 1) 1 1).getD 0)) (by rfl)
      0 0 (by decide) (by decide) (1, 1) (1, 1) (by decide) (by decide)⟩

/-- C5: in both Gaussian modes (periodic-table and quantum-numbers), for every
emax in [1, 118] and positive bandwidths, every diagonal entry of the
returned matrix is exactly 1 and every entry is at most 1. -/
theorem gaussian_modes_diag_one_max (emax : Nat) (h1 : 1 ≤ emax) (h118 : emax ≤ 118)
    (r_width c_width n_width m_width l_width s_width : ℚ)
    (hr : 0 < r_width) (hc : 0 < c_width) (hn : 0 < n_width) (hm : 0 < m_width)
    (hl : 0 < l_width) (hsw : 0 < s_width)
    (P Q : List (List ℝ))
    (hP : gen_pd emax r_width c_width = .ok P)
    (hQ : gen_QNum_distances emax n_width m_width l_width s_width = .ok Q) :
    (∀ i : Nat, i < emax → entry P i i = 1 ∧ entry Q i i = 1)
    ∧ (∀ i j : Nat, i < emax → j < emax → entry P i j ≤ 1 ∧ entry Q i j ≤ 1) := by
  constructor
  · intro i hi
    constructor
    · obtain ⟨pa, pb, hpa, hpb⟩ := periodic_lookup_of_isSome (gen_pd_guard hP i hi i hi)
      have hab : pa = pb := by
        rw [hpa] at hpb
        injection hpb
      rw [gen_pd_ok hP, entry_mkMat emax _ i i hi hi, periodic_distance_eq hpa hpb, ← hab,
        Option.getD_some, periodic_exponent_self]
      rw [Rat.cast_zero, Real.exp_zero]
    · obtain ⟨qa, qb, hqa, hqb⟩ := qnum_lookup_of_isSome (gen_QNum_guard hQ i hi i hi)
      have hab : qa = qb := by
        rw [hqa] at hqb
        injection hqb
      rw [gen_QNum_ok hQ, entry_mkMat emax _ i i hi hi, QNum_distance_eq hqa hqb, ← hab,
        Option.getD_some, qnum_exponent_self]
      rw [Rat.cast_zero, Real.exp_zero]
  · intro i j hi hj
    constructor
    · obtain ⟨pa, pb, hpa, hpb⟩ := periodic_lookup_of_isSome (gen_pd_guard hP i hi j hj)
      rw [gen_pd_ok hP, entry_mkMat emax _ i j hi hj, periodic_distance_eq hpa hpb,
        Option.getD_some]
      have hq : ((periodic_exponent pa pb r_width c_width : ℚ) : ℝ) ≤ 0 := by
        have hnp := periodic_exponent_nonpos pa pb r_width c_width
        exact_mod_cast hnp
      calc Real.exp ((periodic_exponent pa pb r_width c_width : ℚ) : ℝ)
          ≤ Real.exp 0 := Real.exp_le_exp.mpr hq
        _ = 1 := Real.exp_zero
    · obtain ⟨qa, qb, hqa, hqb⟩ := qnum_lookup_of_isSome (gen_QNum_guard hQ i hi j hj)
      rw [gen_QNum_ok hQ, entry_mkMat emax _ i j hi hj, QNum_distance_eq hqa hqb,
        Option.getD_some]
      have hq : ((qnum_exponent qa qb n_width m_width l_width s_width : ℚ) : ℝ) ≤ 0 := by
        have hnp := qnum_exponent_nonpos qa qb n_width m_width l_width s_width
        exact_mod_cast hnp
      calc Real.exp ((qnum_exponent qa qb n_width m_width l_width s_width : ℚ) : ℝ)
          ≤ Real.exp 0 := Real.exp_le_exp.mpr hq
        _ = 1 := Real.exp_zero

/-- Witness for C5 at emax = 1 and unit widths. -/
theorem gaussian_modes_diag_one_max_wit :
    gen_pd 1 1 1 = .ok (mkMat 1 (fun i j => (periodic_distance (i + 1) (j + 1) 1 1).getD 0))
    ∧ ((∀ i : Nat, i < 1 →
        entry (mkMat 1 (fun i j => (periodic_distance (i + 1) (j + 1) 1 1).getD 0)) i i = 1
        ∧ entry (mkMat 1 (fun i j => (QNum_distance (i + 1) (j + 1) 1 1 1 1).getD 0)) i i = 1)
      ∧ (∀ i j : Nat, i < 1 → j < 1 →
        entry (mkMat 1 (fun i j => (periodic_distance (i + 1) (j + 1) 1 1).getD 0)) i j ≤ 1
        ∧ entry (mkMat 1 (fun i j => (QNum_distance (i + 1) (j + 1) 1 1 1 1).getD 0)) i j ≤ 1)) :=
  ⟨by rfl,
    gaussian_modes_diag_one_max 1 (by decide) (by decide) 1 1 1 1 1 1 (by decide) (by decide)
      (by decide) (by decide) (by decide) (by decide)
      (mkMat 1 (fun i j => (periodic_distance (i + 1) (j + 1) 1 1).getD 0))
      (mkMat 1 (fun i j => (QNum_distance (i + 1) (j + 1) 1 1 1 1).getD 0))
      (by rfl) (by rfl)⟩

/-- C9: the table lookups of gen_pd and gen_QNum_distances all succeed
exactly when emax is at most 118: both builders return a matrix for every
emax in [1, 118], while for emax of 119 or more both abort with a key error
because element 119 is missing from `PTP` and `QtNm`, whose keys cover only
the atomic numbers 1 through 118. -/
theorem tables_total_iff_emax_le_118 (emax : Nat)
    (r_width c_width n_width m_width l_width s_width : ℚ) :
    (1 ≤ emax → emax ≤ 118 →
      (∃ M, gen_pd emax r_width c_width = .ok M)
      ∧ (∃ M, gen_QNum_distances emax n_width m_width l_width s_width = .ok M))
    ∧ (119 ≤ emax →
      gen_pd emax r_width c_width = .error "KeyError"
      ∧ gen_QNum_distances emax n_width m_width l_width s_width = .error "KeyError")
    ∧ dGet PTP 119 = none ∧ dGet QtNm 119 = none
    ∧ (∀ z, 1 ≤ z → z ≤ 118 → (dGet PTP z).isSome ∧ (dGet QtNm z).isSome) := by
  have hcovP : ∀ z, z < 118 → (dGet PTP (z + 1)).isSome = true := by decide
  have hcovQ : ∀ z, z < 118 → (dGet QtNm (z + 1)).isSome = true := by decide
  have h119P : dGet PTP 119 = none := by decide
  have h119Q : dGet QtNm 119 = none := by decide
  refine ⟨?_, ?_, h119P, h119Q, ?_⟩
  · intro h1 h118
    constructor
    · have hg : ∀ i < emax, ∀ j < emax,
          (periodic_distance (i + 1) (j + 1) r_width c_width).isSome := by
        intro i hi j hj
        exact periodic_distance_isSome (hcovP i (by omega)) (hcovP j (by omega))
      exact ⟨_, by unfold gen_pd; rw [dif_pos hg]⟩
    · have hg : ∀ i < emax, ∀ j < emax,
          (QNum_distance (i + 1) (j + 1) n_width m_width l_width s_width).isSome := by
        intro i hi j hj
        exact QNum_distance_isSome (hcovQ i (by omega)) (hcovQ j (by omega))
      exact ⟨_, by unfold gen_QNum_distances; rw [dif_pos hg]⟩
  · intro h119
    constructor
    · have hg : ¬ ∀ i < emax, ∀ j < emax,
          (periodic_distance (i + 1) (j + 1) r_width c_width).isSome := by
        intro hg
        obtain ⟨pa, pb, hpa, hpb⟩ :=
          periodic_lookup_of_isSome (hg 118 (by omega) 118 (by omega))
        rw [h119P] at hpa
        exact Option.noConfusion hpa
      unfold gen_pd
      rw [dif_neg hg]
    · have hg : ¬ ∀ i < emax, ∀ j < emax,
          (QNum_distance (i + 1) (j + 1) n_width m_width l_width s_width).isSome := by
        intro hg
        obtain ⟨qa, qb, hqa, hqb⟩ :=
          qnum_lookup_of_isSome (hg 118 (by omega) 118 (by omega))
        rw [h119Q] at hqa
        exact Option.noConfusion hqa
      unfold gen_QNum_distances
      rw [dif_neg hg]
  · intro z h1z h118z
    have hz : z = (z - 1) + 1 := by omega
    rw [hz]
    exact ⟨hcovP (z - 1) (by omega), hcovQ (z - 1) (by omega)⟩

/-- C6 counterexample: the empty custom mapping has no two vectors of
different lengths, yet `gen_custom` raises the unequal-dimensions fatal
error on it (`len(set([])) == 1` is false). -/
theorem custom_empty_dim_error_cex :
    gen_custom ([] : List (Int × List ℚ)) 5 = .error "Error! Unequal number of dimensions"
    ∧ (∀ p, p ∈ ([] : List (Int × List ℚ)) → ∀ q, q ∈ ([] : List (Int × List ℚ)) →
        p.2.length = q.2.length) :=
  ⟨rfl, fun p hp => absurd hp (List.not_mem_nil p)⟩

/-- C6 (amended): the custom mode fails with the unequal-dimensions fatal
error whenever two supplied vectors have different lengths, and also on the
empty mapping; when the mapping is nonempty and all vectors share one length,
that error is not raised. -/
theorem custom_dim_error_iff (e_vec : List (Int × List ℚ)) (emax : Nat) :
    ((∃ p, p ∈ e_vec ∧ ∃ q, q ∈ e_vec ∧ p.2.length ≠ q.2.length) →
      gen_custom e_vec emax = .error "Error! Unequal number of dimensions")
    ∧ (e_vec ≠ [] → (∀ p ∈ e_vec, ∀ q ∈ e_vec, p.2.length = q.2.length) →
      gen_custom e_vec emax ≠ .error "Error! Unequal number of dimensions")
    ∧ (e_vec = [] →
      gen_custom e_vec emax = .error "Error! Unequal number of dimensions") := by
  refine ⟨?_, ?_, ?_⟩
  · rintro ⟨p, hp, q, hq, hne⟩
    cases hch : check_if_unique (e_vec.map (fun r => r.2.length)) with
    | true =>
      exact absurd
        (all_eq_of_check _ hch p.2.length (List.mem_map_of_mem (fun r => r.2.length) hp)
          q.2.length (List.mem_map_of_mem (fun r => r.2.length) hq)) hne
    | false =>
      have hcf : ¬ check_if_unique (e_vec.map (fun r => r.2.length)) = true := by
        rw [hch]
        exact Bool.false_ne_true
      simp only [gen_custom]
      rw [if_neg hcf]
  · intro hne hall
    have hmne : e_vec.map (fun r => r.2.length) ≠ [] := by
      cases e_vec with
      | nil => exact absurd rfl hne
      | cons p t => simp
    obtain ⟨p0, t0, he⟩ : ∃ p0 t0, e_vec = p0 :: t0 := by
      cases e_vec with
      | nil => exact absurd rfl hne
      | cons p t => exact ⟨p, t, rfl⟩
    have hch : check_if_unique (e_vec.map (fun r => r.2.length)) = true := by
      apply check_of_all_eq _ p0.2.length hmne
      intro a ha
      obtain ⟨r, hr, hra⟩ := List.mem_map.mp ha
      rw [← hra]
      exact hall r hr p0 (by rw [he]; exact List.mem_cons_self p0 t0)
    simp only [gen_custom]
    rw [if_pos hch]
    by_cases hidx : e_vec.all
        (fun p => decide (-(emax : Int) ≤ p.1) && decide (p.1 < (emax : Int))) = true
    · rw [if_pos hidx]
      intro hco
      exact Except.noConfusion hco
    · rw [if_neg hidx]
      intro hco
      injection hco with hs
      exact absurd hs (by decide)
  · intro he
    subst he
    rfl

theorem find?_key_of_nodup :
    ∀ (l : List (Int × List ℚ)) (p : Int × List ℚ), (l.map Prod.fst).Nodup → p ∈ l →
      l.find? (fun q => q.1 = p.1) = some p
  | q :: t, p, hnd, hp => by
    rcases List.mem_cons.mp hp with rfl | hpt
    · exact List.find?_cons_of_pos t (by simp)
    · have hq1 : ¬ q.1 = p.1 := by
        intro he
        have hmem : q.1 ∈ t.map Prod.fst := he ▸ List.mem_map_of_mem Prod.fst hpt
        exact (List.nodup_cons.mp (by simpa using hnd)).1 hmem
      rw [List.find?_cons_of_neg t (by simpa using hq1)]
      exact find?_key_of_nodup t p ((List.nodup_cons.mp (by simpa using hnd)).2) hpt

/-- C1 counterexample: with the custom mapping assigning element 1 the vector
[1] and emax = 2, the returned matrix has entry (0,0) equal to 0, not to the
dot product 1 of the vectors of the 1-indexed elements 0+1 and 0+1: the
supplied vector of element 1 lands in row 1, so entry (1,1) is 1 instead. -/
theorem custom_entry_offset_cex :
    ∃ M, gen_custom [((1 : Int), [(1 : ℚ)])] 2 = .ok M
      ∧ entry M 0 0 = 0 ∧ entry M 1 1 = 1
      ∧ listDot [(1 : ℚ)] [(1 : ℚ)] = 1 := by
  refine ⟨_, rfl, ?_, ?_, ?_⟩
  · rw [entry_mkMat 2 _ 0 0 (by decide) (by decide)]
    show (0 : ℚ) * 0 + listDot [] [] = 0
    norm_num [listDot]
  · rw [entry_mkMat 2 _ 1 1 (by decide) (by decide)]
    show (1 : ℚ) * 1 + listDot [] [] = 1
    norm_num [listDot]
  · show (1 : ℚ) * 1 + listDot [] [] = 1
    norm_num [listDot]

/-- C1 (amended): for a nonempty custom mapping with pairwise distinct integer
keys all inside [0, emax) and vectors of one common length d, `gen_custom`
returns the matrix whose entry (i, j) is the dot product of the vectors of
the element ids i and j themselves (row k holds element k's vector, so 0-based
row indices coincide with element ids rather than with 1-indexed elements
i+1, j+1); an element id without a supplied vector contributes the all-zero
vector of length d. -/
theorem custom_entry_is_dot_of_ids (e_vec : List (Int × List ℚ)) (d emax : Nat)
    (hne : e_vec ≠ []) (hnodup : (e_vec.map Prod.fst).Nodup)
    (hrange : ∀ p ∈ e_vec, 0 ≤ p.1 ∧ p.1 < (emax : Int))
    (hd : ∀ p ∈ e_vec, p.2.length = d) (hemax : 0 < emax) :
    ∃ M, gen_custom e_vec emax = .ok M
      ∧ (∀ i j : Nat, i < emax → j < emax →
          entry M i j = listDot (rowVec e_vec d i) (rowVec e_vec d j))
      ∧ (∀ p ∈ e_vec, rowVec e_vec d p.1.toNat = p.2)
      ∧ (∀ i : Nat, (∀ p ∈ e_vec, p.1 ≠ (i : Int)) →
          rowVec e_vec d i = List.replicate d 0) := by
  have h0 : ∀ p ∈ e_vec, 0 ≤ p.1 := fun p hp => (hrange p hp).1
  have hhead : (e_vec.map (fun p => p.2.length)).headD 0 = d := by
    cases e_vec with
    | nil => exact absurd rfl hne
    | cons p t => simpa using hd p (List.mem_cons_self p t)
  have hmne : e_vec.map (fun p => p.2.length) ≠ [] := by
    cases e_vec with
    | nil => exact absurd rfl hne
    | cons p t => simp
  have hch : check_if_unique (e_vec.map (fun p => p.2.length)) = true := by
    apply check_of_all_eq _ d hmne
    intro a ha
    obtain ⟨r, hr, hra⟩ := List.mem_map.mp ha
    rw [← hra]
    exact hd r hr
  have hall : e_vec.all
      (fun p => decide (-(emax : Int) ≤ p.1) && decide (p.1 < (emax : Int))) = true := by
    rw [List.all_eq_true]
    intro p hp
    have hp0 := (hrange p hp).1
    have hp1 := (hrange p hp).2
    simp only [Bool.and_eq_true, decide_eq_true_eq]
    exact ⟨by omega, hp1⟩
  refine ⟨mkMat emax (fun i j =>
      listDot (buildTmp emax ((e_vec.map (fun p => p.2.length)).headD 0) e_vec i)
        (buildTmp emax ((e_vec.map (fun p => p.2.length)).headD 0) e_vec j)),
    ?_, ?_, ?_, ?_⟩
  · simp only [gen_custom]
    rw [if_pos hch, if_pos hall]
  · intro i j hi hj
    rw [entry_mkMat emax _ i j hi hj, hhead, buildTmp_eq_rowVec emax d e_vec i h0 hnodup,
      buildTmp_eq_rowVec emax d e_vec j h0 hnodup]
  · intro p hp
    have hcast : ((p.1.toNat : Nat) : Int) = p.1 := Int.toNat_of_nonneg (h0 p hp)
    unfold rowVec
    simp only [hcast]
    rw [find?_key_of_nodup e_vec p hnodup hp]
    rfl
  · intro i hno
    unfold rowVec
    rw [List.find?_eq_none.mpr (fun p hp => by simpa using hno p hp)]
    rfl

/-- Witness for C1 at the mapping assigning element 0 the vector [2] and
element 1 the vector [3], with emax = 2. -/
theorem custom_entry_is_dot_of_ids_wit :
    ([((0 : Int), [(2 : ℚ)]), ((1 : Int), [(3 : ℚ)])] : List (Int × List ℚ)) ≠ []
    ∧ (∃ M, gen_custom [((0 : Int), [(2 : ℚ)]), ((1 : Int), [(3 : ℚ)])] 2 = .ok M
      ∧ (∀ i j : Nat, i < 2 → j < 2 →
          entry M i j = listDot (rowVec [((0 : Int), [(2 : ℚ)]), ((1 : Int), [(3 : ℚ)])] 1 i)
            (rowVec [((0 : Int), [(2 : ℚ)]), ((1 : Int), [(3 : ℚ)])] 1 j))
      ∧ (∀ p ∈ ([((0 : Int), [(2 : ℚ)]), ((1 : Int), [(3 : ℚ)])] : List (Int × List ℚ)),
          rowVec [((0 : Int), [(2 : ℚ)]), ((1 : Int), [(3 : ℚ)])] 1 p.1.toNat = p.2)
      ∧ (∀ i : Nat,
          (∀ p ∈ ([((0 : Int), [(2 : ℚ)]), ((1 : Int), [(3 : ℚ)])] : List (Int × List ℚ)),
            p.1 ≠ (i : Int)) →
          rowVec [((0 : Int), [(2 : ℚ)]), ((1 : Int), [(3 : ℚ)])] 1 i
            = List.replicate 1 0)) :=
  ⟨by decide,
    custom_entry_is_dot_of_ids [((0 : Int), [(2 : ℚ)]), ((1 : Int), [(3 : ℚ)])] 1 2
      (by decide) (by decide) (by decide) (by decide) (by decide)⟩
